import Mathlib

/-!
Verification development for the body-shop work-order translator
(`app/translate.py`, `app/pdf_render.py`).

The Python source is shallowly embedded: pure functions become Lean
functions over `String` / `List Char`, Python dicts become insertion-ordered
association lists, pandas DataFrames become lists of records, and the
pdfplumber page object is modelled as a structure of positioned words,
detected table grids and plain page text (the page model is the external
document-decoding capability; the repository does not implement it).
CPython string/character semantics are modelled at the ASCII level (the
documents handled by the program are ASCII); Python `float` values are
modelled as exact rationals (every literal appearing in the claims, such
as `1.50`, is exactly representable).
-/

set_option autoImplicit false

namespace BodyShop

deriving instance DecidableEq for Except

unseal Rat.add Rat.sub Rat.mul Rat.ofScientific

/-! ## Python character and string primitives (ASCII model) -/

/-- Python whitespace for `str.strip`, `str.isspace` and the regex class
`\s` (ASCII part plus the common Unicode line/space separators). -/
def pyIsSpaceChar (c : Char) : Bool :=
  c = ' ' || c = '\t' || c = '\n' || c = '\r' || c = '\x0b' || c = '\x0c' ||
  c = '\x1c' || c = '\x1d' || c = '\x1e' || c = '\x1f' || c = '\x85' || c = '\xa0'

def isDigitChar (c : Char) : Bool := '0' ≤ c && c ≤ '9'

def isUpperChar (c : Char) : Bool := 'A' ≤ c && c ≤ 'Z'

def isLowerChar (c : Char) : Bool := 'a' ≤ c && c ≤ 'z'

def isLetterChar (c : Char) : Bool := isUpperChar c || isLowerChar c

/-- Regex `\w` (ASCII model). -/
def isWordChar (c : Char) : Bool := isLetterChar c || isDigitChar c || c = '_'

def toLowerChar (c : Char) : Char :=
  if isUpperChar c then Char.ofNat (c.toNat + 32) else c

def toUpperChar (c : Char) : Char :=
  if isLowerChar c then Char.ofNat (c.toNat - 32) else c

/-- `pat` is a prefix of `l`. -/
def isPrefixL : List Char → List Char → Bool
  | [], _ => true
  | _ :: _, [] => false
  | p :: ps, c :: cs => p = c && isPrefixL ps cs

/-- Python `pat in s` (contiguous substring test), on char lists. -/
def isSubstrL : List Char → List Char → Bool
  | pat, [] => pat.isEmpty
  | pat, c :: rest => isPrefixL pat (c :: rest) || isSubstrL pat rest

/-- Python `pat in s`. -/
def isSubstr (pat s : String) : Bool := isSubstrL pat.data s.data

/-- Python `s.startswith(pre)`. -/
def pyStartsWith (s pre : String) : Bool := isPrefixL pre.data s.data

/-- Python `s.endswith(suf)`. -/
def pyEndsWith (s suf : String) : Bool := isPrefixL suf.data.reverse s.data.reverse

/-- Python `str.strip()` on char lists. -/
def pyStripL (l : List Char) : List Char :=
  ((l.dropWhile pyIsSpaceChar).reverse.dropWhile pyIsSpaceChar).reverse

/-- Python `str.strip()`. -/
def pyStrip (s : String) : String := String.mk (pyStripL s.data)

/-- Python `str.lower()` (ASCII). -/
def pyLower (s : String) : String := String.mk (s.data.map toLowerChar)

/-- Python `str.isupper()`: at least one cased character and no lower-case
cased character (ASCII: cased = letters). -/
def pyIsUpper (s : String) : Bool :=
  s.data.any isLetterChar && s.data.all (fun c => !isLowerChar c)

/-- Helper for `pyTitle`: the flag records whether the previous character
was a letter. -/
def pyTitleL : List Char → Bool → List Char
  | [], _ => []
  | c :: rest, prevLetter =>
    if isLetterChar c then
      (if prevLetter then toLowerChar c else toUpperChar c) :: pyTitleL rest true
    else
      c :: pyTitleL rest false

/-- Python `str.title()` (ASCII): upper-cases every letter that does not
follow another letter, lower-cases the rest. -/
def pyTitle (s : String) : String := String.mk (pyTitleL s.data false)

/-- Python `s.replace(pat, rep)` on char lists: replaces every
non-overlapping occurrence left to right.  The fuel argument makes the
recursion structural; every step consumes at least one character of the
subject (a non-empty match consumes `pat.length ≥ 1`), so the wrapper's
`l.length` fuel never runs out.  (All call sites in the source use
non-empty patterns; for an empty pattern this model returns the input
unchanged, where CPython would interleave the replacement.) -/
def replaceFuel : Nat → List Char → List Char → List Char → List Char
  | 0, l, _, _ => l
  | _ + 1, [], _, _ => []
  | fuel + 1, c :: rest, pat, rep =>
    if !pat.isEmpty && isPrefixL pat (c :: rest) then
      rep ++ replaceFuel fuel ((c :: rest).drop pat.length) pat rep
    else
      c :: replaceFuel fuel rest pat rep

def replaceL (l pat rep : List Char) : List Char := replaceFuel l.length l pat rep

/-- Python `s.replace(pat, rep)`. -/
def pyReplace (s pat rep : String) : String :=
  String.mk (replaceL s.data pat.data rep.data)

/-- The characters before the first occurrence of `sep` in `l`; the whole
list when `sep` does not occur.  This is Python `s.split(sep)[0]`. -/
def splitFirstL : List Char → List Char → List Char
  | [], _ => []
  | c :: rest, sep =>
    if isPrefixL sep (c :: rest) then [] else c :: splitFirstL rest sep

/-- Python `s.split(sep)[0]`. -/
def pySplitFirst (s sep : String) : String :=
  String.mk (splitFirstL s.data sep.data)

/-- Line-break characters recognised by Python `str.splitlines`. -/
def isLineBreakChar (c : Char) : Bool :=
  c = '\n' || c = '\r' || c = '\x0b' || c = '\x0c' ||
  c = '\x1c' || c = '\x1d' || c = '\x1e' || c = '\x85' ||
  c = '\u2028' || c = '\u2029'

/-- Helper for `pySplitlines`; `acc` is the current line, reversed. -/
def splitlinesAux : List Char → List Char → List (List Char)
  | [], acc => if acc.isEmpty then [] else [acc.reverse]
  | '\r' :: '\n' :: rest, acc => acc.reverse :: splitlinesAux rest []
  | c :: rest, acc =>
    if isLineBreakChar c then acc.reverse :: splitlinesAux rest []
    else splitlinesAux rest (c :: acc)

/-- Python `str.splitlines()` (no trailing empty piece). -/
def pySplitlines (s : String) : List String :=
  (splitlinesAux s.data []).map String.mk

/-- Value of a run of decimal digits (Python `int`). -/
def digitsToNat (l : List Char) : Nat :=
  l.foldl (fun n c => n * 10 + (c.toNat - 48)) 0

/-- Python `float` applied to a string matched by `\d+\.\d+`, modelled as
an exact rational. -/
def floatOfGroup (g : List Char) : ℚ :=
  let ip := g.takeWhile isDigitChar
  let fp := (g.dropWhile isDigitChar).drop 1
  mkRat ((digitsToNat ip * 10 ^ fp.length + digitsToNat fp : Nat) : Int) (10 ^ fp.length)

/-- `" ".join(parts)`. -/
def joinSp (parts : List String) : String :=
  String.mk (List.intercalate [' '] (parts.map String.data))

/-! ## The Spanish glossary and the two phrase generators
(`SPANISH_GLOSSARY`, `_plain_english`, `_spanish` in `translate.py`). -/

def SPANISH_GLOSSARY : List (String × String) :=
  [("belt molding", "moldura de la ventana"),
   ("side molding", "moldura lateral"),
   ("run channel", "canal de la ventana"),
   ("trim panel", "panel interior"),
   ("door shell", "estructura de la puerta"),
   ("door glass", "vidrio de la puerta"),
   ("mirror", "espejo lateral"),
   ("weatherstrip", "sello de la puerta"),
   ("applique", "moldura decorativa"),
   ("door assembly", "ensamble de la puerta"),
   ("aperture panel", "panel de apertura")]

/-- `_plain_english(op, desc)`. -/
def pyPlainEnglish (op desc : String) : String :=
  if op = "" ∧ pyIsUpper desc then
    "Section: " ++ pyTitle desc
  else
    let d := pyReplace (pyReplace desc "LT " "Left ") "RT " "Right "
    let d := pyReplace (pyReplace d "w\x27strip" "weatherstrip") "assy" "assembly"
    let opL := pyLower op
    if isSubstr "repair" opL then "Repair the " ++ pyLower d ++ "."
    else if isSubstr "remove" opL && isSubstr "replace" opL then
      "Remove and replace the " ++ pyLower d ++ "."
    else if isSubstr "remove" opL && isSubstr "install" opL then
      "Remove and reinstall the " ++ pyLower d ++ "."
    else d

/-- The side stem chosen by `_spanish` from the description prefix
(`"LT "` ↦ `izquierd`, `"RT "` ↦ `derech`). -/
def spanishSide (desc : String) : Option String :=
  if pyStartsWith desc "LT " then some "izquierd"
  else if pyStartsWith desc "RT " then some "derech"
  else none

/-- The local `d` of `_spanish`: the description with a detected 3-character
side prefix removed. -/
def spanishStripped (desc : String) : String :=
  if pyStartsWith desc "LT " then String.mk (desc.data.drop 3)
  else if pyStartsWith desc "RT " then String.mk (desc.data.drop 3)
  else desc

/-- The local `d_low` of `_spanish`. -/
def spanishDLow (desc : String) : String :=
  pyReplace (pyReplace (pyLower (spanishStripped desc)) "w\x27strip" "weatherstrip")
    "assy" "door assembly"

/-- The glossary loop of `_spanish`: first entry (in declaration order)
whose English key is a substring of `d`. -/
def glossLookup : List (String × String) → String → Option String
  | [], _ => none
  | (k, v) :: rest, d => if isSubstr k d then some v else glossLookup rest d

/-- The local `base` of `_spanish` before side agreement: glossary value of
the first matching entry, else the side-stripped description. -/
def spanishBase (desc : String) : String :=
  (glossLookup SPANISH_GLOSSARY (spanishDLow desc)).getD (spanishStripped desc)

/-- `_spanish(op, desc)`. -/
def pySpanish (op desc : String) : String :=
  if op = "" ∧ pyIsUpper desc then
    "Sección: " ++ pyReplace (pyTitle desc) " & " " y "
  else
    let base := spanishBase desc
    let base :=
      match spanishSide desc with
      | some stem =>
        let fem := isSubstr "puerta" base || isSubstr "moldura" base ||
          isSubstr "estructura" base
        base ++ " " ++ (stem ++ (if fem then "a" else "o"))
      | none => base
    let opL := pyLower op
    if isSubstr "repair" opL then "Reparar " ++ base ++ "."
    else if isSubstr "remove" opL && isSubstr "replace" opL then
      "Retirar y reemplazar " ++ base ++ "."
    else if isSubstr "remove" opL && isSubstr "install" opL then
      "Retirar y reinstalar " ++ base ++ "."
    else base

/-! ## A small backtracking regex engine

The two row patterns of `_parse_rows` and the fourteen header patterns of
`_extract_header_regex` are transcribed literally into this abstract syntax.
Candidate matches are enumerated in CPython's backtracking priority order
(greedy quantifiers longest-first, lazy quantifiers shortest-first,
alternation left branch first), so the first overall match — and hence every
captured group — coincides with `re` semantics.  Every repetition in the
source patterns has a single-character body, which is all `plusC` / `starC` /
`lazyPlusC` support. -/

inductive RE where
  /-- A literal string. -/
  | lit : List Char → RE
  /-- `c+` for a character class, greedy. -/
  | plusC : (Char → Bool) → RE
  /-- `c*` for a character class, greedy. -/
  | starC : (Char → Bool) → RE
  /-- `c+?` for a character class, lazy. -/
  | lazyPlusC : (Char → Bool) → RE
  /-- `c{n}` for a character class. -/
  | repC : (Char → Bool) → Nat → RE
  /-- `(?:r)?`, greedy. -/
  | opt : RE → RE
  | seq : RE → RE → RE
  /-- `(?:a|b)`. -/
  | alt : RE → RE → RE
  /-- `$` (end of string, or just before a single trailing newline). -/
  | endAnchor : RE

/-- All splits of `l` at a boundary inside its maximal leading run of
`p`-characters, longest consumed part first. -/
def runSplits (p : Char → Bool) (l : List Char) : List (List Char × List Char) :=
  let m := l.takeWhile p
  let rest := l.dropWhile p
  ((List.range (m.length + 1)).reverse).map fun k => (m.take k, m.drop k ++ rest)

/-- The candidate (consumed, remainder) pairs of a regex against a suffix,
in backtracking priority order. -/
def reCands : RE → List Char → List (List Char × List Char)
  | .lit s, l => if isPrefixL s l then [(s, l.drop s.length)] else []
  | .plusC p, l => (runSplits p l).filter (fun pr => !pr.1.isEmpty)
  | .starC p, l => runSplits p l
  | .lazyPlusC p, l => ((runSplits p l).filter (fun pr => !pr.1.isEmpty)).reverse
  | .repC p n, l =>
    if (l.take n).length = n && (l.take n).all p then [(l.take n, l.drop n)] else []
  | .opt r, l => reCands r l ++ [([], l)]
  | .seq a b, l =>
    (reCands a l).flatMap fun pr =>
      (reCands b pr.2).map fun pr2 => (pr.1 ++ pr2.1, pr2.2)
  | .alt a b, l => reCands a l ++ reCands b l
  | .endAnchor, l => if l = [] || l = ['\n'] then [([], l)] else []

/-- Match a sequence of regex components at the start of `l` (the remainder
after the last component is unconstrained; an explicit `endAnchor`
component encodes `$`).  Returns the characters consumed by each component
of the first match in backtracking order, exactly the captured spans of
CPython's leftmost match. -/
def matchSeqFrom : List RE → List Char → Option (List (List Char))
  | [], _ => some []
  | r :: rs, l =>
    (reCands r l).findSome? fun pr => (matchSeqFrom rs pr.2).map (pr.1 :: ·)

/-- `re.search`: try every start position left to right; `i` is the index
of the current suffix. -/
def reSearchAux (comps : List RE) : List Char → Nat → Option (Nat × List (List Char))
  | l, i =>
    match matchSeqFrom comps l with
    | some gs => some (i, gs)
    | none =>
      match l with
      | [] => none
      | _ :: rest => reSearchAux comps rest (i + 1)

/-- `re.search(pattern, s)`: start index of the leftmost match together
with the per-component consumed spans. -/
def reSearch (comps : List RE) (l : List Char) : Option (Nat × List (List Char)) :=
  reSearchAux comps l 0

/-! ## Line-item parsing (`_parse_rows` in `translate.py`) -/

/-- Character class `[A-Z0-9 ,&'/.-]` of the section-heading pattern. -/
def isSectionChar (c : Char) : Bool :=
  isUpperChar c || isDigitChar c || c = ' ' || c = ',' || c = '&' ||
  c = '\x27' || c = '/' || c = '.' || c = '-'

/-- `^(\d+)\s+([A-Z0-9 ,&'/.-]+)$` — components 0 and 2 are the two
captured groups. -/
def headingComps : List RE :=
  [.plusC isDigitChar, .plusC pyIsSpaceChar, .plusC isSectionChar, .endAnchor]

/-- `^(\d+)\s+([A-Za-z ]+(?:/ [A-Za-z]+)?)\s+(\d+)\s+[A-Z0-9]+\s+(.*)$` —
components 0, 2, 4 and 8 are the four captured groups. -/
def rowComps : List RE :=
  [.plusC isDigitChar,
   .plusC pyIsSpaceChar,
   .seq (.plusC fun c => isLetterChar c || c = ' ')
     (.opt (.seq (.lit ['/', ' ']) (.plusC isLetterChar))),
   .plusC pyIsSpaceChar,
   .plusC isDigitChar,
   .plusC pyIsSpaceChar,
   .plusC (fun c => isUpperChar c || isDigitChar c),
   .plusC pyIsSpaceChar,
   .starC (fun c => c ≠ '\n'),
   .endAnchor]

/-- `(\d+\.\d+)\s*$` — component 0 is the captured group. -/
def hoursComps : List RE :=
  [.seq (.seq (.plusC isDigitChar) (.lit ['.'])) (.plusC isDigitChar),
   .starC pyIsSpaceChar,
   .endAnchor]

/-- Does `\bOEM\b\s*$` match at the start of `l`?  The leading `\b` is
checked by the caller; the trailing `\b` is implied because the characters
after `OEM` must all be whitespace (or nothing). -/
def oemMatchHere (l : List Char) : Bool :=
  isPrefixL ['O', 'E', 'M'] l && (l.drop 3).all pyIsSpaceChar

/-- Offset of the leftmost match of `\bOEM\b\s*$`, scanning with the
previous character's word-ness for the `\b` test. -/
def oemFindAux : List Char → Bool → Option Nat
  | l, prevWord =>
    if !prevWord && oemMatchHere l then some 0
    else
      match l with
      | [] => none
      | c :: rest => (oemFindAux rest (isWordChar c)).map (· + 1)

/-- `re.sub(r"\bOEM\b\s*$", "", s)`: the match always extends to the end of
the string, so substitution truncates at the match start. -/
def pySubOEM (s : String) : String :=
  match oemFindAux s.data false with
  | some i => String.mk (s.data.take i)
  | none => s

/-- One parsed row of `_parse_rows` (`plain_english` / `spanish` not yet
attached).  `fromHeading` records which of the two `rows.append` sites in
the source produced the record — the all-caps section-heading branch or the
operation-row branch; it does not influence any computation. -/
structure Row where
  line : Nat
  qty : Option Nat
  op : String
  desc : String
  hours : Option ℚ
  fromHeading : Bool
  deriving DecidableEq

/-- The operation-row branch of the per-line loop of `_parse_rows`. -/
def parseLineRow (lc : List Char) : Option Row :=
  match matchSeqFrom rowComps lc with
  | none => none
  | some gs =>
    let lineNo := digitsToNat (gs.getD 0 [])
    let op := pyStrip (String.mk (gs.getD 2 []))
    let qty := digitsToNat (gs.getD 4 [])
    let rest := gs.getD 8 []
    let mh := reSearch hoursComps rest
    let hours : Option ℚ := mh.map fun pr => floatOfGroup (pr.2.getD 0 [])
    let desc :=
      match mh with
      | some pr => pyStrip (String.mk (rest.take pr.1))
      | none => String.mk rest
    let desc :=
      if isSubstr " Body " (" " ++ desc ++ " ") then pyStrip (pySplitFirst desc " Body ")
      else desc
    let desc := pyStrip (pySubOEM desc)
    some { line := lineNo, qty := some qty, op := op, desc := desc,
           hours := hours, fromHeading := false }

/-- The body of the per-line loop of `_parse_rows`: `none` exactly when the
line matches neither pattern and is skipped.  The section-heading pattern
is tried first; a heading match containing `"Repair"` or `"Remove"` falls
through to the operation-row pattern, as in the source. -/
def parseLine (l : String) : Option Row :=
  match matchSeqFrom headingComps l.data with
  | some gs =>
    if !isSubstr "Repair" l && !isSubstr "Remove" l then
      some { line := digitsToNat (gs.getD 0 []), qty := none, op := "",
             desc := String.mk (gs.getD 2 []), hours := none, fromHeading := true }
    else parseLineRow l.data
  | none => parseLineRow l.data

/-- The non-blank stripped lines of the full text
(`[l.strip() for l in full_text.splitlines() if l.strip()]`). -/
def linesOf (text : String) : List String :=
  ((pySplitlines text).map pyStrip).filter (· ≠ "")

/-- A table header line: starts with `"Line"` and contains `"Assigned"`. -/
def isMarkerLine (l : String) : Bool :=
  pyStartsWith l "Line" && isSubstr "Assigned" l

/-- A terminator line: starts with `"Subtotals"` or `"Grand Total"`. -/
def isStopLine (l : String) : Bool :=
  pyStartsWith l "Subtotals" || pyStartsWith l "Grand Total"

/-- The start-of-table scan of `_parse_rows`: index just after the first
marker line, or 0 when there is none; `i` is the index of the current
position. -/
def startScan : List String → Nat → Nat
  | [], _ => 0
  | l :: rest, i => if isMarkerLine l then i + 1 else startScan rest (i + 1)

def startIdxOf (text : String) : Nat := startScan (linesOf text) 0

/-- The candidate lines actually examined by the per-line loop: everything
from the start index up to (excluding) the first terminator line. -/
def candidatesOf (text : String) : List String :=
  ((linesOf text).drop (startIdxOf text)).takeWhile (fun l => !isStopLine l)

/-- The `rows` list accumulated by `_parse_rows` before the DataFrame is
built. -/
def rowsOf (text : String) : List Row :=
  (candidatesOf text).filterMap parseLine

/-- Stable insertion sort (an element is placed after existing elements
that compare `le` to it). -/
def insertSorted {α : Type} (le : α → α → Bool) (x : α) : List α → List α
  | [] => [x]
  | y :: ys => if le y x then y :: insertSorted le x ys else x :: y :: ys

def stableSort {α : Type} (le : α → α → Bool) (l : List α) : List α :=
  l.foldl (fun acc x => insertSorted le x acc) []

/-- `df.sort_values("Line")`.  pandas' default sort kind is quicksort; its
tie order on duplicate keys is not specified by the source, so the sort is
modelled as a stable sort (for up to 15 rows numpy's quicksort degenerates
to insertion sort and is in fact stable). -/
def sortByLine (rows : List Row) : List Row :=
  stableSort (fun a b => decide (a.line ≤ b.line)) rows

/-- A finished line item: a `Row` with the two derived sentence columns. -/
structure Item where
  line : Nat
  qty : Option Nat
  op : String
  desc : String
  hours : Option ℚ
  fromHeading : Bool
  plainEnglish : String
  spanish : String
  deriving DecidableEq

/-- The two derived columns added after sorting
(`df["Plain English"]`, `df["Spanish"]`). -/
def enrichRow (r : Row) : Item :=
  { line := r.line, qty := r.qty, op := r.op, desc := r.desc, hours := r.hours,
    fromHeading := r.fromHeading,
    plainEnglish := pyPlainEnglish r.op r.desc,
    spanish := pySpanish r.op r.desc }

/-- `_parse_rows(full_text)`.  When no line matched either pattern, `rows`
is empty and `pd.DataFrame(rows)` has no `"Line"` column, so
`sort_values("Line")` raises `KeyError`; this is the error branch. -/
def parseRows (text : String) : Except String (List Item) :=
  let rows := rowsOf text
  if rows.isEmpty then .error "KeyError: Line"
  else .ok ((sortByLine rows).map enrichRow)

/-! ## Python dicts as insertion-ordered association lists -/

/-- A Python `dict` with string keys and values: an association list in
insertion order, keys unique. -/
abbrev Dict := List (String × String)

/-- `d[k] = v`: overwrite in place when the key is present (Python keeps
the original position), else append. -/
def dictInsert : Dict → String → String → Dict
  | [], k, v => [(k, v)]
  | (k0, v0) :: rest, k, v =>
    if k0 = k then (k0, v) :: rest else (k0, v0) :: dictInsert rest k v

/-- `d.get(k)` / `k in d`. -/
def dictLookup : Dict → String → Option String
  | [], _ => none
  | (k0, v0) :: rest, k => if k0 = k then some v0 else dictLookup rest k

/-- `del d[k]`. -/
def dictDelete : Dict → String → Dict
  | [], _ => []
  | (k0, v0) :: rest, k =>
    if k0 = k then rest else (k0, v0) :: dictDelete rest k

def dictKeys (d : Dict) : List String := d.map Prod.fst

/-- `re.sub(r"\s+", " ", k)`: collapse every maximal whitespace run to a
single space.  Fuel as in `replaceFuel`: each step consumes at least one
character, so `l.length` fuel suffices. -/
def collapseWsFuel : Nat → List Char → List Char
  | 0, l => l
  | _ + 1, [] => []
  | fuel + 1, c :: rest =>
    if pyIsSpaceChar c then ' ' :: collapseWsFuel fuel (rest.dropWhile pyIsSpaceChar)
    else c :: collapseWsFuel fuel rest

def collapseWsL (l : List Char) : List Char := collapseWsFuel l.length l

/-- Python `k.rstrip(":")`: remove every trailing colon. -/
def rstripColonL (l : List Char) : List Char :=
  (l.reverse.dropWhile (· = ':')).reverse

/-- `_clean_key(k)`: whitespace collapsing, strip, trailing-colon strip,
strip. -/
def cleanKey (k : String) : String :=
  String.mk (pyStripL (rstripColonL (pyStripL (collapseWsL k.data))))

/-! ## The inline pair splitter (`_extract_inline_pairs_from_tokens`) -/

/-- A token as seen by the header strategies: its text and whether its font
name marks it bold (`_is_bold_word`). -/
abbrev Tok := String × Bool

/-- The inner key scan: collect non-bold tokens until one ends with `":"`
(inclusive); abort on a bold token or at the end.  Returns the key parts
and the tokens after the key token. -/
def scanKey : List Tok → Option (List String × List Tok)
  | [] => none
  | (t, b) :: rest =>
    if b then none
    else if pyEndsWith t ":" then some ([t], rest)
    else (scanKey rest).map fun pr => (t :: pr.1, pr.2)

/-- The maximal leading run of bold tokens (their texts) and the remainder. -/
def takeBoldRun : List Tok → List String × List Tok
  | [] => ([], [])
  | (t, b) :: rest =>
    if b then
      let pr := takeBoldRun rest
      (t :: pr.1, pr.2)
    else ([], (t, b) :: rest)

/-- All tokens (their texts) up to the next non-bold token ending in `":"`,
and the remainder. -/
def takeUntilKey : List Tok → List String × List Tok
  | [] => ([], [])
  | (t, b) :: rest =>
    if !b && pyEndsWith t ":" then ([], (t, b) :: rest)
    else
      let pr := takeUntilKey rest
      (t :: pr.1, pr.2)

/-- The value tokens after a key: prefer the bold run; when it is empty,
fall back to everything up to the next key token. -/
def takeValue (l : List Tok) : List String × List Tok :=
  let pr := takeBoldRun l
  if pr.1.isEmpty then takeUntilKey l else pr

/-- The main `while` loop of `_extract_inline_pairs_from_tokens`.
`inMain` is the `in_main` flag, `mains` the accumulated main-value parts,
`extras` the accumulated embedded pairs.  Fuel as in `replaceFuel`: every
iteration consumes at least one token (`scanKey` consumes the key token
and everything before it; `takeValue` only consumes further), so the
wrapper's `tokens.length` fuel suffices. -/
def inlineLoopFuel : Nat → List Tok → Bool → List String → Dict → List String × Dict
  | 0, _, _, mains, extras => (mains, extras)
  | _ + 1, [], _, mains, extras => (mains, extras)
  | fuel + 1, (t, b) :: rest, inMain, mains, extras =>
    if t = "" then inlineLoopFuel fuel rest inMain mains extras
    else if b = false then
      match scanKey ((t, b) :: rest) with
      | some pr =>
        let key := cleanKey (joinSp pr.1)
        let v := takeValue pr.2
        let val := pyStrip (joinSp v.1)
        inlineLoopFuel fuel v.2 false mains
          (if key ≠ "" ∧ val ≠ "" then dictInsert extras key val else extras)
      | none => inlineLoopFuel fuel rest inMain mains extras
    else inlineLoopFuel fuel rest inMain (if inMain then mains ++ [t] else mains) extras

/-- The final fallback of the splitter: all token texts before the first
non-bold token ending in `":"`. -/
def mainFallback : List Tok → List String
  | [] => []
  | (t, b) :: rest =>
    if !b && pyEndsWith t ":" then [] else t :: mainFallback rest

/-- `_extract_inline_pairs_from_tokens(tokens)`: the main value and the
embedded key/value pairs of one cell's token stream. -/
def extractInlinePairs (tokens : List Tok) : String × Dict :=
  if tokens.isEmpty then ("", [])
  else
    let pr := inlineLoopFuel tokens.length tokens true [] []
    let main := pyStrip (joinSp pr.1)
    let main := if main = "" then pyStrip (joinSp (mainFallback tokens)) else main
    (main, pr.2)

/-! ## The page model

The spec (§6) treats the document decoder as an external capability that
supplies, per page: positioned words with font attributes, detected table
grids, and the page's plain text.  A page is modelled accordingly;
`within_bbox` keeps the words lying entirely inside the region, and a
detected table carries its cell boxes and its extracted cell text
(`Table.extract()`). -/

structure BBox where
  x0 : ℚ
  top : ℚ
  x1 : ℚ
  bottom : ℚ
  deriving DecidableEq

structure Word where
  text : String
  fontname : String
  x0 : ℚ
  top : ℚ
  x1 : ℚ
  bottom : ℚ
  deriving DecidableEq

structure TableG where
  cells : List BBox
  data : List (List (Option String))
  deriving DecidableEq

structure Page where
  words : List Word
  tables : List TableG
  text : String
  deriving DecidableEq

structure Pdf where
  pages : List Page
  deriving DecidableEq

/-- `_is_bold_word(w)`. -/
def isBoldWord (w : Word) : Bool :=
  isSubstr "bold" (pyLower w.fontname) || isSubstr "demi" (pyLower w.fontname) ||
  isSubstr "black" (pyLower w.fontname)

/-- Lexicographic order on `(top, x0)`, the sort key used throughout. -/
def wordLe (a b : Word) : Bool :=
  decide (a.top < b.top) || (decide (a.top = b.top) && decide (a.x0 ≤ b.x0))

def bboxLe (a b : BBox) : Bool :=
  decide (a.top < b.top) || (decide (a.top = b.top) && decide (a.x0 ≤ b.x0))

/-- `_words_in_bbox(page0, bbox, pad)`: pad the box (clamping left/top at
0), keep the page's words lying inside it, sort by `(top, x0)`. -/
def wordsInBBox (p : Page) (bb : BBox) (pad : ℚ) : List Word :=
  let x0p := max 0 (bb.x0 - pad)
  let topp := max 0 (bb.top - pad)
  let x1p := bb.x1 + pad
  let botp := bb.bottom + pad
  stableSort wordLe (p.words.filter fun w =>
    decide (x0p ≤ w.x0) && decide (w.x1 ≤ x1p) &&
    decide (topp ≤ w.top) && decide (w.bottom ≤ botp))

/-- The row/line clustering loop shared by `_group_words_into_lines` and
the cell clustering of `_extract_header_from_top_box_table`: the anchor
`curTop` is the `top` of the first element of the current cluster. -/
def clusterAux {α : Type} (tol : ℚ) (getTop : α → ℚ) :
    List α → List α → ℚ → List (List α)
  | [], cur, _ => [cur]
  | x :: rest, cur, curTop =>
    if |getTop x - curTop| ≤ tol then clusterAux tol getTop rest (cur ++ [x]) curTop
    else cur :: clusterAux tol getTop rest [x] (getTop x)

def cluster {α : Type} (tol : ℚ) (getTop : α → ℚ) : List α → List (List α)
  | [] => []
  | x :: rest => clusterAux tol getTop rest [x] (getTop x)

/-- `_group_words_into_lines(words, y_tol=2.0)`. -/
def groupWordsIntoLines (ws : List Word) (tol : ℚ) : List (List Word) :=
  if ws.isEmpty then []
  else
    (cluster tol Word.top (stableSort wordLe ws)).map
      (stableSort fun a b => decide (a.x0 ≤ b.x0))

/-! ## Header strategy 1: the table grid (`_extract_header_from_top_box_table`) -/

/-- `t.extract()` flattened:
`" ".join(" ".join(c or "" for c in row) for row in data)`. -/
def flatData (t : TableG) : String :=
  joinSp (t.data.map fun row => joinSp (row.map (·.getD "")))

/-- `_header_table_from_page(page0)`: prefer the detected table whose
flattened text contains `"ro number"` (case-insensitively), else the first
detected table; `none` when no table is detected. -/
def headerTableFromPage (p : Page) : Option TableG :=
  match p.tables with
  | [] => none
  | t0 :: _ =>
    match p.tables.find? (fun t => isSubstr "ro number" (pyLower (flatData t))) with
    | some t => some t
    | none => some t0

/-- The cell rows of the chosen header table: cells sorted by `(top, x0)`,
clustered into rows with `y_tol = 4.0`, each row sorted by `x0`. -/
def tableRows (p : Page) : List (List BBox) :=
  match headerTableFromPage p with
  | none => []
  | some t =>
    (cluster 4 BBox.top (stableSort bboxLe t.cells)).map
      (stableSort fun a b => decide (a.x0 ≤ b.x0))

/-- The token stream of a value cell:
`[(w["text"], _is_bold_word(w)) for w in words if w["text"].strip()]`. -/
def cellTokens (p : Page) (bb : BBox) : List Tok :=
  (wordsInBBox p bb 3.5).filterMap fun w =>
    if pyStrip w.text = "" then none else some (w.text, isBoldWord w)

/-- The label text of a label cell. -/
def cellLabel (p : Page) (bb : BBox) : String :=
  cleanKey (joinSp ((wordsInBBox p bb 3.5).map (·.text)))

/-- The ordered `(key, value)` stores one row of the header table performs:
`(k1, v1)` when both are non-empty, the embedded pairs of value cell 1,
then the same for the second label/value pair when the row has at least
four cells. -/
def rowStores (p : Page) (row : List BBox) : List (String × String) :=
  match row with
  | c0 :: c1 :: rest =>
    let k1 := cellLabel p c0
    let pr1 := extractInlinePairs (cellTokens p c1)
    ((if k1 ≠ "" ∧ pr1.1 ≠ "" then [(k1, pr1.1)] else []) ++ pr1.2) ++
      (match rest with
       | c2 :: c3 :: _ =>
         let k2 := cellLabel p c2
         let pr2 := extractInlinePairs (cellTokens p c3)
         (if k2 ≠ "" ∧ pr2.1 ≠ "" then [(k2, pr2.1)] else []) ++ pr2.2
       | _ => [])
  | _ => []

/-- Perform a sequence of `header[k] = v` stores on a dict. -/
def foldStores (d : Dict) (stores : List (String × String)) : Dict :=
  stores.foldl (fun d' kv => dictInsert d' kv.1 kv.2) d

/-- `_extract_header_from_top_box_table(page0)`: every row's stores are
performed in order on the (initially empty) header dict. -/
def tableHeader (p : Page) : Dict :=
  (tableRows p).foldl (fun h row => foldStores h (rowStores p row)) []

/-- The full store sequence of the table strategy, in execution order. -/
def tableStores (p : Page) : List (String × String) :=
  (tableRows p).flatMap (rowStores p)

/-! ## Header strategy 2: bold runs (`_extract_header_from_bold_lines`) -/

/-- The inner `while` over one line's tokens: at a non-bold token ending in
`":"`, take its cleaned text as the key, the following value run
(`takeValue`), and store the pair unless the key is already present.
Fuel as in `replaceFuel`: every iteration consumes at least the current
token, so the wrapper's `tokens.length` fuel suffices. -/
def boldLineLoopFuel : Nat → List Tok → Dict → Dict
  | 0, _, h => h
  | _ + 1, [], h => h
  | fuel + 1, (t, b) :: rest, h =>
    if !b && pyEndsWith t ":" then
      let key := cleanKey t
      let v := takeValue rest
      let val := pyStrip (joinSp v.1)
      boldLineLoopFuel fuel v.2
        (if key ≠ "" ∧ val ≠ "" ∧ dictLookup h key = none then dictInsert h key val
         else h)
    else boldLineLoopFuel fuel rest h

/-- `_extract_header_from_bold_lines(page0)`: words above the `"Line"`
token (or above the fixed cutoff 220), grouped into visual lines, each
line scanned for key/value runs; first occurrence of a key wins. -/
def boldHeader (p : Page) : Dict :=
  if p.words.isEmpty then []
  else
    let headerBottom :=
      match p.words.find? (fun w => w.text = "Line") with
      | some w => w.top
      | none => 220
    let ws := p.words.filter fun w => decide (w.top < headerBottom)
    let lines := groupWordsIntoLines ws 2
    lines.foldl
      (fun h line =>
        let tokens := line.filterMap fun w =>
          if pyStrip w.text = "" then none else some (pyStrip w.text, isBoldWord w)
        boldLineLoopFuel tokens.length tokens h)
      []

/-! ## Header strategy 3: regex fallback (`_extract_header_regex`) -/

/-- `grab(pat)`: the stripped first capture of the leftmost match, or
`""`.  `gIdx` is the index of the capture among the pattern's components. -/
def grab (comps : List RE) (gIdx : Nat) (text : String) : String :=
  match reSearch comps text.data with
  | some pr => pyStrip (String.mk (pr.2.getD gIdx []))
  | none => ""

/-- `_extract_header_regex(page_text)`: one named pattern per canonical
field, each transcribed from the source; the capture is always the third
component (label literal, `\s*`, capture). -/
def regexHeader (t : String) : Dict :=
  [("RO Number", grab [.lit "RO Number:".data, .starC pyIsSpaceChar, .plusC isDigitChar] 2 t),
   ("Owner", grab [.lit "Owner:".data, .starC pyIsSpaceChar,
      .plusC fun c => isUpperChar c || c = ' ' || c = ','] 2 t),
   ("Year", grab [.lit "Year:".data, .starC pyIsSpaceChar, .repC isDigitChar 4] 2 t),
   ("Exterior Color", grab [.lit "Exterior Color:".data, .starC pyIsSpaceChar,
      .plusC isUpperChar] 2 t),
   ("Make", grab [.lit "Make:".data, .starC pyIsSpaceChar, .plusC isUpperChar] 2 t),
   ("Vehicle In", grab [.lit "Vehicle In:".data, .starC pyIsSpaceChar,
      .plusC fun c => isDigitChar c || c = '/'] 2 t),
   ("Vehicle Out", grab [.lit "Vehicle Out:".data, .starC pyIsSpaceChar,
      .plusC fun c => isDigitChar c || c = '/'] 2 t),
   ("Model", grab [.lit "Model:".data, .starC pyIsSpaceChar, .lazyPlusC (· ≠ '\n'),
      .alt (.lit "Vehicle Out:".data) .endAnchor] 2 t),
   ("Mileage In", grab [.lit "Mileage In:".data, .starC pyIsSpaceChar,
      .plusC isDigitChar] 2 t),
   ("Estimator", grab [.lit "Estimator:".data, .starC pyIsSpaceChar, .lazyPlusC (· ≠ '\n'),
      .alt (.lit "Insurance:".data) .endAnchor] 2 t),
   ("Body Style", grab [.lit "Body Style:".data, .starC pyIsSpaceChar, .lazyPlusC (· ≠ '\n'),
      .alt (.lit "VIN:".data) .endAnchor] 2 t),
   ("Insurance", grab [.lit "Insurance:".data, .starC pyIsSpaceChar, .plusC (· ≠ '\n')] 2 t),
   ("VIN", grab [.lit "VIN:".data, .starC pyIsSpaceChar,
      .plusC fun c => isUpperChar c || isDigitChar c] 2 t),
   ("Job Number", grab [.lit "Job Number:".data, .starC pyIsSpaceChar, .plusC (· ≠ '\n')] 2 t)]

/-- The canonical field set of the renderer, in the order of the regex
strategy's dict literal. -/
def canonicalKeys : List String :=
  ["RO Number", "Owner", "Year", "Exterior Color", "Make", "Vehicle In",
   "Vehicle Out", "Model", "Mileage In", "Estimator", "Body Style",
   "Insurance", "VIN", "Job Number"]

/-! ## Key normalization and the pipeline (`_normalize_header_keys`,
`extract_workorder_from_pdf_bytes`) -/

/-- The alias table of `_normalize_header_keys`. -/
def aliasMap : Dict :=
  [("RO#", "RO Number"), ("RO", "RO Number"), ("Exterior", "Exterior Color"),
   ("ExteriorColor", "Exterior Color"), ("JobNumber", "Job Number"),
   ("VehicleIn", "Vehicle In"), ("VehicleOut", "Vehicle Out"),
   ("Mileage", "Mileage In")]

/-- One step of the normalization loop over the snapshot of items: an
aliased (cleaned) key is stored under its canonical name and deleted; a
key changed by cleaning is stored under the cleaned name and deleted;
otherwise nothing happens. -/
def normStep (out : Dict) (kv : String × String) : Dict :=
  let kk := cleanKey kv.1
  match dictLookup aliasMap kk with
  | some canon => dictDelete (dictInsert out canon kv.2) kv.1
  | none =>
    if kk ≠ kv.1 then dictDelete (dictInsert out kk kv.2) kv.1 else out

/-- `_normalize_header_keys(header)`: iterate over a snapshot of the items
while mutating the copy. -/
def normalizeHeaderKeys (d : Dict) : Dict := d.foldl normStep d

/-- The header chain of `extract_workorder_from_pdf_bytes`: table strategy,
then bold-line strategy, then regex fallback, then key normalization. -/
def extractHeader (p : Page) : Dict :=
  let h := tableHeader p
  let h := if h.isEmpty then boldHeader p else h
  let h := if h.isEmpty then regexHeader p.text else h
  normalizeHeaderKeys h

/-- `"\n".join((p.extract_text() or "") for p in pdf.pages)`. -/
def fullTextOf (pdf : Pdf) : String :=
  String.mk (List.intercalate ['\n'] (pdf.pages.map fun p => p.text.data))

/-- `extract_workorder_from_pdf_bytes`, from the decoded page model on:
`pdf.pages[0]` raises `IndexError` on an empty page list, and
`_parse_rows` may raise (see `parseRows`); decoding itself is outside the
model. -/
def extractWorkorder (pdf : Pdf) : Except String (Dict × List Item) :=
  match pdf.pages with
  | [] => .error "IndexError: pages"
  | p0 :: _ =>
    (parseRows (fullTextOf pdf)).map fun items => (extractHeader p0, items)

/-! ## The renderer's section-heading test (`render_translation_pdf_bytes`) -/

/-- `is_section_header = (op.strip() == "") and desc.isupper()` computed by
the renderer for each row of the DataFrame. -/
def renderIsSection (it : Item) : Bool :=
  pyStrip it.op = "" && pyIsUpper it.desc

/-! ## Concrete pages used as test inputs -/

/-- A decodable page with no words, no detected tables and empty text. -/
def emptyPage : Page := { words := [], tables := [], text := "" }

/-- A page whose only header-like content is a label `"Foo:"` with a bold
value `"Bar"`, and whose text contains one operation row. -/
def fooPage : Page :=
  { words :=
      [{ text := "Foo:", fontname := "Helvetica", x0 := 0, top := 100, x1 := 20, bottom := 110 },
       { text := "Bar", fontname := "Helvetica-Bold", x0 := 25, top := 100, x1 := 40, bottom := 110 }],
    tables := [],
    text := "1 X 2 AB stuff" }

/-- A page with one detected table of two rows, both rows labelled
`"Year"` with different values. -/
def dupPage : Page :=
  { words :=
      [{ text := "Year", fontname := "Helvetica", x0 := 10, top := 2, x1 := 20, bottom := 8 },
       { text := "2020", fontname := "Arial-Bold", x0 := 60, top := 2, x1 := 80, bottom := 8 },
       { text := "Year", fontname := "Helvetica", x0 := 10, top := 22, x1 := 20, bottom := 28 },
       { text := "2021", fontname := "Arial-Bold", x0 := 60, top := 22, x1 := 80, bottom := 28 }],
    tables :=
      [{ cells :=
           [{ x0 := 0, top := 0, x1 := 50, bottom := 10 },
            { x0 := 50, top := 0, x1 := 100, bottom := 10 },
            { x0 := 0, top := 20, x1 := 50, bottom := 30 },
            { x0 := 50, top := 20, x1 := 100, bottom := 30 }],
         data := [[some "Year", some "2020"], [some "Year", some "2021"]] }],
    text := "" }

/-- The single item produced by parsing the heading line `"5 PANEL"`. -/
def c4item : Item :=
  { line := 5, qty := none, op := "", desc := "PANEL", hours := none,
    fromHeading := true, plainEnglish := "Section: Panel", spanish := "Sección: Panel" }

/-! ## Helper lemmas -/

theorem pyStripL_eq_rdropWhile (l : List Char) :
    pyStripL l = (l.dropWhile pyIsSpaceChar).rdropWhile pyIsSpaceChar := rfl

theorem dropWhile_eq_self_of_prefix {p : Char → Bool} :
    ∀ {X Y : List Char}, X <+: Y → Y.dropWhile p = Y → X.dropWhile p = X := by
  intro X Y hXY hY
  cases X with
  | nil => rfl
  | cons c cs =>
    obtain ⟨t, ht⟩ := hXY
    rw [← ht, List.cons_append, List.dropWhile_cons] at hY
    by_cases hc : p c = true
    · rw [if_pos hc] at hY
      exfalso
      have hle : (List.dropWhile p (cs ++ t)).length ≤ (cs ++ t).length :=
        (List.dropWhile_suffix p).length_le
      have hlen := congrArg List.length hY
      simp only [List.length_cons] at hlen
      omega
    · rw [List.dropWhile_cons, if_neg hc]

theorem dropWhile_rdropWhile_dropWhile (p : Char → Bool) (l : List Char) :
    ((l.dropWhile p).rdropWhile p).dropWhile p = (l.dropWhile p).rdropWhile p :=
  dropWhile_eq_self_of_prefix (List.rdropWhile_prefix p _) (List.dropWhile_idempotent p l)

theorem pyStripL_idem (l : List Char) : pyStripL (pyStripL l) = pyStripL l := by
  rw [pyStripL_eq_rdropWhile, pyStripL_eq_rdropWhile,
    dropWhile_rdropWhile_dropWhile, List.rdropWhile_idempotent]

theorem pyStrip_idem (s : String) : pyStrip (pyStrip s) = pyStrip s := by
  unfold pyStrip
  rw [show (String.mk (pyStripL s.data)).data = pyStripL s.data from rfl, pyStripL_idem]

theorem mem_insertSorted {α : Type} (le : α → α → Bool) (x y : α) :
    ∀ l : List α, y ∈ insertSorted le x l ↔ y = x ∨ y ∈ l := by
  intro l
  induction l with
  | nil => simp [insertSorted]
  | cons z zs ih =>
    simp only [insertSorted]
    split
    · rw [List.mem_cons, ih, List.mem_cons]
      tauto
    · rw [List.mem_cons]

theorem mem_stableSort_aux {α : Type} (le : α → α → Bool) (y : α) :
    ∀ (l acc : List α),
      (y ∈ l.foldl (fun acc' x => insertSorted le x acc') acc ↔ y ∈ acc ∨ y ∈ l) := by
  intro l
  induction l with
  | nil => simp
  | cons z zs ih =>
    intro acc
    simp only [List.foldl_cons, ih, mem_insertSorted, List.mem_cons]
    tauto

theorem mem_stableSort {α : Type} (le : α → α → Bool) (y : α) (l : List α) :
    y ∈ stableSort le l ↔ y ∈ l := by
  unfold stableSort
  rw [mem_stableSort_aux]
  simp

theorem glossLookup_eq_find? (d : String) :
    ∀ gl : List (String × String),
      glossLookup gl d = (gl.find? fun p => isSubstr p.1 d).map Prod.snd := by
  intro gl
  induction gl with
  | nil => rfl
  | cons kv rest ih =>
    obtain ⟨k, v⟩ := kv
    by_cases h : isSubstr k d
    · simp [glossLookup, List.find?_cons, h]
    · simp [glossLookup, List.find?_cons, h, ih]

theorem dictLookup_insert (d : Dict) (k k' v : String) :
    dictLookup (dictInsert d k v) k' = if k = k' then some v else dictLookup d k' := by
  induction d with
  | nil => rfl
  | cons kv rest ih =>
    obtain ⟨k0, v0⟩ := kv
    by_cases h0 : k0 = k
    · subst h0
      simp only [dictInsert, if_pos rfl, dictLookup]
      by_cases h1 : k0 = k' <;> simp [h1]
    · simp only [dictInsert, if_neg h0, dictLookup, ih]
      by_cases h1 : k0 = k' <;> by_cases h2 : k = k' <;> simp [h1, h2]
      exact absurd (h2.trans h1.symm) (fun hh => h0 hh.symm)

/-- The value of the last store for key `k` in a store sequence (later
stores win). -/
def lastAssoc : List (String × String) → String → Option String
  | [], _ => none
  | (k0, v0) :: rest, k =>
    match lastAssoc rest k with
    | some v => some v
    | none => if k0 = k then some v0 else none

/-- First-some choice, used to state the overwrite lemmas. -/
def oElse (a b : Option String) : Option String :=
  match a with
  | some x => some x
  | none => b

theorem oElse_assoc (a b c : Option String) :
    oElse (oElse a b) c = oElse a (oElse b c) := by
  cases a <;> rfl

theorem oElse_none_right (a : Option String) : oElse a none = a := by
  cases a <;> rfl

theorem lastAssoc_cons (k0 v0 k : String) (rest : List (String × String)) :
    lastAssoc ((k0, v0) :: rest) k =
      oElse (lastAssoc rest k) (if k0 = k then some v0 else none) := by
  simp only [lastAssoc, oElse]

theorem lastAssoc_append (a b : List (String × String)) (k : String) :
    lastAssoc (a ++ b) k = oElse (lastAssoc b k) (lastAssoc a k) := by
  induction a with
  | nil => simp [lastAssoc, oElse_none_right]
  | cons kv rest ih =>
    obtain ⟨k0, v0⟩ := kv
    simp only [List.cons_append, lastAssoc_cons, ih, oElse_assoc]

theorem dictLookup_foldStores (k : String) :
    ∀ (stores : List (String × String)) (d : Dict),
      dictLookup (foldStores d stores) k = oElse (lastAssoc stores k) (dictLookup d k) := by
  intro stores
  induction stores with
  | nil => intro d; rfl
  | cons kv rest ih =>
    intro d
    obtain ⟨k0, v0⟩ := kv
    have hstep : foldStores d ((k0, v0) :: rest) = foldStores (dictInsert d k0 v0) rest := rfl
    rw [hstep, ih, dictLookup_insert, lastAssoc_cons]
    cases lastAssoc rest k <;> by_cases h : k0 = k <;> simp [oElse, h]

theorem startScan_eq_zero :
    ∀ (lines : List String) (i : Nat),
      (∀ l ∈ lines, isMarkerLine l = false) → startScan lines i = 0 := by
  intro lines
  induction lines with
  | nil => intro i _; rfl
  | cons l rest ih =>
    intro i h
    have hl := h l (by simp)
    simp only [startScan, hl, Bool.false_eq_true, if_false]
    exact ih (i + 1) fun x hx => h x (by simp [hx])

theorem exceptIsOk_map {ε α β : Type} (f : α → β) (e : Except ε α) :
    (e.map f).isOk = e.isOk := by
  cases e <;> rfl

theorem parseRows_isOk_iff (text : String) :
    (parseRows text).isOk = true ↔ rowsOf text ≠ [] := by
  cases hr : rowsOf text with
  | nil => simp [parseRows, hr, Except.isOk, Except.toBool]
  | cons r rs => simp [parseRows, hr, Except.isOk, Except.toBool]

theorem extractWorkorder_isOk_iff (pdf : Pdf) :
    (extractWorkorder pdf).isOk = true ↔
      (pdf.pages ≠ [] ∧ rowsOf (fullTextOf pdf) ≠ []) := by
  obtain ⟨pages⟩ := pdf
  cases pages with
  | nil => simp [extractWorkorder, Except.isOk, Except.toBool]
  | cons p0 rest =>
    show ((parseRows (fullTextOf ⟨p0 :: rest⟩)).map _).isOk = true ↔ _
    rw [exceptIsOk_map, parseRows_isOk_iff]
    simp

theorem parseLineRow_shape (lc : List Char) (r : Row) (h : parseLineRow lc = some r) :
    pyStrip r.op = r.op ∧ r.fromHeading = false := by
  unfold parseLineRow at h
  split at h
  · exact Option.noConfusion h
  · cases h
    exact ⟨pyStrip_idem _, rfl⟩

theorem parseLine_shape (l : String) (r : Row) (h : parseLine l = some r) :
    pyStrip r.op = r.op ∧ (r.fromHeading = true → r.op = "") := by
  unfold parseLine at h
  split at h
  · split at h
    · cases h
      exact ⟨rfl, fun _ => rfl⟩
    · obtain ⟨h1, h2⟩ := parseLineRow_shape _ _ h
      refine ⟨h1, fun hf => ?_⟩
      rw [h2] at hf
      exact Bool.noConfusion hf
  · obtain ⟨h1, h2⟩ := parseLineRow_shape _ _ h
    refine ⟨h1, fun hf => ?_⟩
    rw [h2] at hf
    exact Bool.noConfusion hf

theorem normStep_noop (out : Dict) (kv : String × String)
    (h1 : cleanKey kv.1 = kv.1) (h2 : dictLookup aliasMap kv.1 = none) :
    normStep out kv = out := by
  simp [normStep, h1, h2]

theorem normalize_fixed :
    ∀ (snapshot : List (String × String)) (out : Dict),
      (∀ kv ∈ snapshot, cleanKey kv.1 = kv.1 ∧ dictLookup aliasMap kv.1 = none) →
      snapshot.foldl normStep out = out := by
  intro snapshot
  induction snapshot with
  | nil => intro out _; rfl
  | cons kv rest ih =>
    intro out h
    obtain ⟨h1, h2⟩ := h kv (by simp)
    rw [List.foldl_cons, normStep_noop out kv h1 h2]
    exact ih out fun x hx => h x (by simp [hx])

theorem regexHeader_keys (t : String) : dictKeys (regexHeader t) = canonicalKeys := rfl

theorem regexHeader_keys_fixed (t : String) :
    ∀ kv ∈ regexHeader t, cleanKey kv.1 = kv.1 ∧ dictLookup aliasMap kv.1 = none := by
  intro kv h
  have h2 : kv.1 ∈ dictKeys (regexHeader t) := List.mem_map_of_mem Prod.fst h
  rw [regexHeader_keys t] at h2
  simp only [canonicalKeys, List.mem_cons, List.not_mem_nil, or_false] at h2
  rcases h2 with hk | hk | hk | hk | hk | hk | hk | hk | hk | hk | hk | hk | hk | hk <;>
    rw [hk] <;> exact ⟨by decide, by decide⟩

theorem normalizeRegex_eq (t : String) :
    normalizeHeaderKeys (regexHeader t) = regexHeader t :=
  normalize_fixed _ _ (regexHeader_keys_fixed t)

theorem aliasMap_spec (k canon : String) (h : dictLookup aliasMap k = some canon) :
    cleanKey k = k ∧ k ≠ canon ∧ canon ∈ canonicalKeys := by
  simp only [aliasMap, dictLookup] at h
  split_ifs at h with h1 h2 h3 h4 h5 h6 h7 h8 <;>
    first
      | exact Option.noConfusion h
      | (cases h; subst_vars; decide)

theorem lookup_foldRows (k : String) (f : List BBox → List (String × String)) :
    ∀ (rows : List (List BBox)) (d : Dict),
      dictLookup (rows.foldl (fun h row => foldStores h (f row)) d) k =
        oElse (lastAssoc (rows.flatMap f) k) (dictLookup d k) := by
  intro rows
  induction rows with
  | nil => intro d; rfl
  | cons r rs ih =>
    intro d
    rw [List.foldl_cons, ih, dictLookup_foldStores, List.flatMap_cons, lastAssoc_append,
      oElse_assoc]

/-! ## The claims -/

set_option maxHeartbeats 4000000 in
/-- C1.  The claim states that `_parse_rows` never raises and that
`extract_workorder_from_pdf_bytes` can fail only during document decoding.
Counterexample: on a decodable input whose text contains no line matching
either row pattern, the accumulated `rows` list is empty, so
`pd.DataFrame(rows).sort_values("Line")` raises `KeyError` — `_parse_rows`
fails, and the pipeline fails after decoding succeeded. -/
theorem c1_counterexample_unmatched_text_fails :
    (parseRows "hello world\ngoodbye").isOk = false ∧
    (extractWorkorder
      { pages := [{ words := [], tables := [], text := "hello world" }] }).isOk = false := by
  constructor <;> decide

/-- C1 (amended).  `_parse_rows` succeeds — silently skipping every line
that matches neither pattern — exactly when at least one candidate line
matches one of the two patterns; `extract_workorder_from_pdf_bytes`
(beyond decoding, which is outside the model) succeeds exactly when the
page list is non-empty and some line of the concatenated text matches. -/
theorem c1_failure_iff_no_matching_row :
    (∀ text : String, (parseRows text).isOk = true ↔ rowsOf text ≠ []) ∧
    (∀ pdf : Pdf, (extractWorkorder pdf).isOk = true ↔
      (pdf.pages ≠ [] ∧ rowsOf (fullTextOf pdf) ≠ [])) :=
  ⟨parseRows_isOk_iff, extractWorkorder_isOk_iff⟩

set_option maxHeartbeats 4000000 in
/-- C2.  On the fixed input pair
(`"Remove / Replace"`, `"LT Belt Molding"`), the English generator yields
exactly `"Remove and replace the left belt molding."` and the Spanish
generator exactly `"Retirar y reemplazar moldura de la ventana izquierda."`
(the glossary resolves `belt molding` to the feminine
`moldura de la ventana`, so the side adjective is `izquierda`). -/
theorem c2_fixed_pair_phrases :
    pyPlainEnglish "Remove / Replace" "LT Belt Molding" =
      "Remove and replace the left belt molding." ∧
    pySpanish "Remove / Replace" "LT Belt Molding" =
      "Retirar y reemplazar moldura de la ventana izquierda." := by
  constructor <;> decide

set_option maxHeartbeats 4000000 in
/-- C3.  The candidate line
`"14 Repair 1 DP5Z16227 LT Door Shell Body OEM 1.50"` parses to
line 14, operation `"Repair"`, quantity 1, hours 1.50 (the rational 3/2),
and description `"LT Door Shell"` (the trailing decimal becomes the hours,
the `" Body "`-delimited tail is discarded, and the then-trailing
standalone `"OEM"` token is stripped). -/
theorem c3_door_shell_line_parse :
    parseLine "14 Repair 1 DP5Z16227 LT Door Shell Body OEM 1.50" =
      some { line := 14, qty := some 1, op := "Repair", desc := "LT Door Shell",
             hours := some (mkRat 3 2), fromHeading := false } := by
  decide

set_option maxHeartbeats 4000000 in
/-- C4.  The claim states that `operation == "" and description.isupper()`
holds iff an item came from the section-heading pattern.  Counterexamples
in both directions: the heading pattern accepts the all-digit line
`"12 345"` and produces an item with empty operation whose description
`"345"` has no cased character, so the predicate is false; and the
operation-row pattern accepts `"1   2 X3 REST:"` (the operation group
matches a lone space, stripped to `""`, and `"REST:"` is upper-case), so
the predicate is true for a non-heading item. -/
theorem c4_counterexample_provenance_mismatch :
    parseRows "12 345" =
      .ok [{ line := 12, qty := none, op := "", desc := "345", hours := none,
             fromHeading := true, plainEnglish := "345", spanish := "345" }] ∧
    pyIsUpper "345" = false ∧
    parseRows "1   2 X3 REST:" =
      .ok [{ line := 1, qty := some 2, op := "", desc := "REST:", hours := none,
             fromHeading := false, plainEnglish := "Section: Rest:",
             spanish := "Sección: Rest:" }] ∧
    (decide (("" : String) = "") && pyIsUpper "REST:") = true := by
  refine ⟨by decide, by decide, by decide, by decide⟩

/-- C4 (amended).  For every item in the parser's output, the renderer's
section test (`op.strip() == "" and desc.isupper()`) computes exactly the
predicate `operation == "" and description.isupper()` on the stored
fields, and every item produced by the section-heading pattern has an
empty operation; the converse identification of the predicate with
pattern provenance does not hold in general. -/
theorem c4_section_predicate_renderer_agreement :
    ∀ (text : String) (items : List Item), parseRows text = .ok items →
      ∀ it ∈ items,
        renderIsSection it = (decide (it.op = "") && pyIsUpper it.desc) ∧
        (it.fromHeading = true → it.op = "") := by
  intro text items hok it hit
  have hitems : items = (sortByLine (rowsOf text)).map enrichRow := by
    have hok2 : (if (rowsOf text).isEmpty then (.error "KeyError: Line" : Except String (List Item))
        else .ok ((sortByLine (rowsOf text)).map enrichRow)) = .ok items := hok
    by_cases hemp : (rowsOf text).isEmpty = true
    · rw [if_pos hemp] at hok2
      exact Except.noConfusion hok2
    · rw [if_neg hemp] at hok2
      cases hok2
      rfl
  subst hitems
  rcases List.mem_map.mp hit with ⟨r, hr, rfl⟩
  have hr2 : r ∈ rowsOf text := (mem_stableSort _ _ _).mp hr
  rcases List.mem_filterMap.mp hr2 with ⟨l, _, hpl⟩
  obtain ⟨hstrip, hhead⟩ := parseLine_shape l r hpl
  have hop : (enrichRow r).op = r.op := rfl
  have hdesc : (enrichRow r).desc = r.desc := rfl
  have hfrom : (enrichRow r).fromHeading = r.fromHeading := rfl
  constructor
  · unfold renderIsSection
    rw [hop, hdesc, hstrip]
  · rw [hfrom, hop]
    exact hhead

set_option maxHeartbeats 4000000 in
/-- C4 witness: the heading line `"5 PANEL"` parses to a single item on
which the amended properties hold. -/
theorem c4_section_predicate_witness :
    renderIsSection c4item = (decide (c4item.op = "") && pyIsUpper c4item.desc) ∧
    (c4item.fromHeading = true → c4item.op = "") :=
  c4_section_predicate_renderer_agreement "5 PANEL" [c4item] (by decide) c4item (by simp)

set_option maxHeartbeats 4000000 in
/-- C5.  The claim states that every HeaderRecord key lies in the
canonical field set.  Counterexample: a page whose only extractable label
is `"Foo:"` (bold value `"Bar"`) makes the pipeline return the header key
`"Foo"`, which normalization passes through unchanged and which is not a
canonical field. -/
theorem c5_counterexample_foreign_key :
    extractWorkorder { pages := [fooPage] } =
      .ok ([("Foo", "Bar")],
        [{ line := 1, qty := some 2, op := "X", desc := "stuff", hours := none,
           fromHeading := false, plainEnglish := "stuff", spanish := "stuff" }]) ∧
    "Foo" ∉ canonicalKeys := by
  constructor <;> decide

/-- C5 (amended).  The regex strategy's normalized output has exactly the
canonical keys, and the alias table maps each listed variant into the
canonical set; but keys that are neither aliases nor changed by cleaning
pass through normalization unchanged, so the header keys of the other
strategies need not lie in the canonical set. -/
theorem c5_canonical_keys_regex_and_alias :
    (∀ t : String, dictKeys (normalizeHeaderKeys (regexHeader t)) = canonicalKeys) ∧
    (∀ k v canon : String, dictLookup aliasMap k = some canon →
      normalizeHeaderKeys [(k, v)] = [(canon, v)] ∧ canon ∈ canonicalKeys) := by
  constructor
  · intro t
    rw [normalizeRegex_eq]
    exact regexHeader_keys t
  · intro k v canon h
    obtain ⟨hclean, hne, hmem⟩ := aliasMap_spec k canon h
    refine ⟨?_, hmem⟩
    have hstep : normalizeHeaderKeys [(k, v)] = normStep [(k, v)] (k, v) := rfl
    rw [hstep]
    simp only [normStep, hclean, h]
    simp [dictInsert, dictDelete, hne]

/-- C5 witness: the alias `"RO#"` is normalized to the canonical
`"RO Number"`. -/
theorem c5_alias_witness :
    normalizeHeaderKeys [("RO#", "7")] = [("RO Number", "7")] ∧
    "RO Number" ∈ canonicalKeys :=
  c5_canonical_keys_regex_and_alias.2 "RO#" "7" "RO Number" (by decide)

set_option maxHeartbeats 4000000 in
/-- C7.  The claim states that when no strategy yields data the returned
mapping is empty.  Counterexample: on a page with no words, no tables and
empty text, the table and bold strategies yield nothing, but the regex
fallback returns a mapping with all fourteen canonical keys (each with an
empty value) — a non-empty mapping. -/
theorem c7_counterexample_nonempty_mapping :
    tableHeader emptyPage = [] ∧ boldHeader emptyPage = [] ∧
    extractHeader emptyPage =
      [("RO Number", ""), ("Owner", ""), ("Year", ""), ("Exterior Color", ""),
       ("Make", ""), ("Vehicle In", ""), ("Vehicle Out", ""), ("Model", ""),
       ("Mileage In", ""), ("Estimator", ""), ("Body Style", ""), ("Insurance", ""),
       ("VIN", ""), ("Job Number", "")] ∧
    extractHeader emptyPage ≠ [] := by
  refine ⟨by decide, by decide, by decide, by decide⟩

/-- C7 (amended).  The header extraction chain is total, and whenever the
table and bold strategies yield nothing it returns the regex fallback's
mapping, which always carries exactly the fourteen canonical keys
(unmatched fields as empty-string values) — a mapping that is never
empty; a missing field is an empty value, not an exception. -/
theorem c7_regex_fallback_full_mapping :
    ∀ p : Page, tableHeader p = [] → boldHeader p = [] →
      dictKeys (extractHeader p) = canonicalKeys ∧ extractHeader p ≠ [] := by
  intro p h1 h2
  have he : extractHeader p = normalizeHeaderKeys (regexHeader p.text) := by
    unfold extractHeader
    rw [h1, h2]
    rfl
  rw [he, normalizeRegex_eq]
  refine ⟨regexHeader_keys p.text, ?_⟩
  simp [regexHeader]

set_option maxHeartbeats 4000000 in
/-- C7 witness: the empty page satisfies the hypotheses and the amended
conclusion. -/
theorem c7_regex_fallback_witness :
    dictKeys (extractHeader emptyPage) = canonicalKeys ∧ extractHeader emptyPage ≠ [] :=
  c7_regex_fallback_full_mapping emptyPage rfl rfl

set_option maxHeartbeats 4000000 in
/-- C8.  The claim states that in the table-grid strategy the first
occurrence of a key wins.  Counterexample: a header table with two rows
labelled `"Year"` (values `"2020"` then `"2021"`) stores both pairs in
order, and the resulting mapping holds the later value `"2021"`, not the
first `"2020"` — the strategy's plain `header[k] = v` assignment
overwrites. -/
theorem c8_counterexample_overwrite :
    tableStores dupPage = [("Year", "2020"), ("Year", "2021")] ∧
    dictLookup (tableHeader dupPage) "Year" = some "2021" ∧
    ("2021" : String) ≠ "2020" := by
  refine ⟨by decide, by decide, by decide⟩

/-- C8 (amended).  In the table-grid strategy the last occurrence wins:
for every page and key, the mapping produced by
`_extract_header_from_top_box_table` holds the value of the last store of
that key in the strategy's execution-ordered store sequence. -/
theorem c8_last_store_wins :
    ∀ (p : Page) (k : String),
      dictLookup (tableHeader p) k = lastAssoc (tableStores p) k := by
  intro p k
  unfold tableHeader tableStores
  rw [lookup_foldRows]
  exact oElse_none_right _

set_option maxHeartbeats 4000000 in
/-- C9.  The claim states that when no glossary key matches, `base` is the
unmodified-case description.  Counterexample: for the description
`"LT Widget"` no glossary key is a substring of `d_low = "widget"`, and
`base` is the side-stripped `"Widget"`, not the original description
`"LT Widget"`; the generated sentence is built from the stripped form. -/
theorem c9_counterexample_fallback_not_original :
    glossLookup SPANISH_GLOSSARY (spanishDLow "LT Widget") = none ∧
    spanishBase "LT Widget" = "Widget" ∧
    spanishBase "LT Widget" ≠ "LT Widget" ∧
    pySpanish "Repair" "LT Widget" = "Reparar Widget izquierdo." := by
  refine ⟨by decide, by decide, by decide, by decide⟩

/-- C9 (amended).  For every description, the Spanish base phrase is the
value of the first glossary entry in declaration order whose English key
is a substring of the lowercased, side-stripped, substituted description;
when none matches, the base is the side-stripped description with its
case unmodified (the side prefix remains removed). -/
theorem c9_glossary_first_match_base :
    ∀ desc : String,
      spanishBase desc =
        ((SPANISH_GLOSSARY.find? fun p => isSubstr p.1 (spanishDLow desc)).map
          Prod.snd).getD (spanishStripped desc) := by
  intro desc
  unfold spanishBase
  rw [glossLookup_eq_find?]

set_option maxHeartbeats 4000000 in
/-- C10.  The claim states that without a `"Line…Assigned"` marker no
leading lines are skipped, so any line matching a row pattern is emitted
(rather than the parse returning nothing or failing).  Counterexample: in
`"Grand Total\n14 Repair 1 A2 X 1.50"` there is no marker line, scanning
does start at the first line, and the second line matches the row
pattern — but the first line is a terminator, so no row is emitted and
the parse fails. -/
theorem c10_counterexample_stop_line_first :
    startIdxOf "Grand Total\n14 Repair 1 A2 X 1.50" = 0 ∧
    (parseLine "14 Repair 1 A2 X 1.50").isSome = true ∧
    rowsOf "Grand Total\n14 Repair 1 A2 X 1.50" = [] ∧
    (parseRows "Grand Total\n14 Repair 1 A2 X 1.50").isOk = false := by
  refine ⟨by decide, by decide, by decide, by decide⟩

/-- C10 (amended).  When no line of the input is a marker line, the start
index is 0 and candidate matching begins at the very first non-blank
line; the candidates are still cut at the first terminator
(`Subtotals` / `Grand Total`) line. -/
theorem c10_no_marker_starts_at_first_line :
    ∀ text : String,
      (∀ l ∈ linesOf text, isMarkerLine l = false) →
      startIdxOf text = 0 ∧
      candidatesOf text = (linesOf text).takeWhile (fun l => !isStopLine l) := by
  intro text h
  have h0 : startIdxOf text = 0 := startScan_eq_zero (linesOf text) 0 h
  refine ⟨h0, ?_⟩
  unfold candidatesOf
  rw [h0, List.drop_zero]

set_option maxHeartbeats 4000000 in
/-- C10 witness: a text with no marker line, on which scanning starts at
line 0 and the candidate list is the terminator-cut line list. -/
theorem c10_no_marker_witness :
    startIdxOf "7 DOORS\nSubtotals 5\n8 WINDOWS" = 0 ∧
    candidatesOf "7 DOORS\nSubtotals 5\n8 WINDOWS" =
      (linesOf "7 DOORS\nSubtotals 5\n8 WINDOWS").takeWhile (fun l => !isStopLine l) :=
  c10_no_marker_starts_at_first_line "7 DOORS\nSubtotals 5\n8 WINDOWS" (by decide)

end BodyShop
